import Mathlib

/-!
Verification of the notion-exporter client (src/NotionExporter.ts) against its
specification. The TypeScript source is shallowly embedded: JS objects become
association lists of string keys and values, promises become explicit result
values, and the timer-driven poll loop becomes a recursion over the finite
stream of status-query results, recording the delay/query/log events it emits.
The helpers `blockIdFromUrl` and `validateUuid` (imported by the source from
"./blockId") and the `defaultConfig` value (from "./config") are not among the
sources and are modelled from the specification, as marked on their doc
comments.
-/

namespace NotionExporter

/-- A JS value as it occurs in the configuration objects of the source:
strings, numbers and booleans. -/
inductive JVal where
  | vStr : String → JVal
  | vNum : Int → JVal
  | vBool : Bool → JVal
deriving DecidableEq, Repr

/-- A JS object: a finite association list of properties, in insertion order.
Real JS objects have pairwise distinct keys; lemmas that need this take a
`Nodup` hypothesis on the key list. -/
abbrev JObj := List (String × JVal)

/-- Property read `o[k]`: the first binding of `k`, if any. -/
def JObj.get (o : JObj) (k : String) : Option JVal :=
  match o with
  | [] => none
  | p :: rest => if p.1 == k then some p.2 else JObj.get rest k

/-- Property write `o[k] = v`: update the binding of `k` in place, or append a
new binding when `k` is absent (JS insertion-order semantics). -/
def JObj.set (o : JObj) (k : String) (v : JVal) : JObj :=
  match o with
  | [] => [(k, v)]
  | p :: rest => if p.1 == k then (k, v) :: rest else p :: JObj.set rest k v

/-- `Object.assign(target, src)`: copy every property of `src` onto `target`,
mutating and returning `target`. -/
def objectAssign (target src : JObj) : JObj :=
  src.foldl (fun t p => JObj.set t p.1 p.2) target

/-- Rest-destructuring `{a, b, ...rest} = o`: the properties of `o` whose keys
are not among the extracted ones, in order. -/
def removeKeys (o : JObj) (ks : List String) : JObj :=
  o.filter (fun p => !(decide (p.1 ∈ ks)))

/-- JS truthiness of an optional JS value: `undefined`, `false`, `0` and `""`
are falsy, everything else is truthy. -/
def jsTruthy : Option JVal → Bool
  | none => false
  | some (JVal.vBool b) => b
  | some (JVal.vNum n) => n != 0
  | some (JVal.vStr s) => s != ""

theorem JObj.get_set_self (o : JObj) (k : String) (v : JVal) :
    JObj.get (JObj.set o k v) k = some v := by
  induction o with
  | nil => simp [JObj.set, JObj.get]
  | cons p rest ih =>
    by_cases h : p.1 = k
    · simp [JObj.set, JObj.get, h]
    · simp only [JObj.set, JObj.get]
      rw [if_neg (by simpa using h)]
      simpa [JObj.get, h] using ih

theorem JObj.get_set_ne (o : JObj) (k k' : String) (v : JVal) (h : k' ≠ k) :
    JObj.get (JObj.set o k v) k' = JObj.get o k' := by
  have h2 : ¬ k = k' := fun hh => h hh.symm
  induction o with
  | nil => simp [JObj.set, JObj.get, h2]
  | cons p rest ih =>
    by_cases hp : p.1 = k
    · simp [JObj.set, JObj.get, hp, h2]
    · simp only [JObj.set, JObj.get]
      rw [if_neg (by simpa using hp)]
      by_cases hk : p.1 = k'
      · simp [JObj.get, hk]
      · simp [JObj.get, hk, ih]

theorem JObj.get_eq_none_of_not_mem_keys (o : JObj) (k : String)
    (h : k ∉ o.map Prod.fst) : JObj.get o k = none := by
  induction o with
  | nil => rfl
  | cons p rest ih =>
    simp only [List.map_cons, List.mem_cons] at h
    push_neg at h
    simp only [JObj.get]
    rw [if_neg (by simpa using fun hh => h.1 hh.symm)]
    exact ih h.2

theorem get_objectAssign (t s : JObj) (k : String)
    (hs : (s.map Prod.fst).Nodup) :
    JObj.get (objectAssign t s) k =
      match JObj.get s k with
      | some v => some v
      | none => JObj.get t k := by
  induction s generalizing t with
  | nil => rfl
  | cons p rest ih =>
    simp only [List.map_cons, List.nodup_cons] at hs
    have step : objectAssign t (p :: rest) = objectAssign (JObj.set t p.1 p.2) rest := rfl
    rw [step, ih _ hs.2]
    by_cases h : p.1 = k
    · have hrest : JObj.get rest k = none :=
        JObj.get_eq_none_of_not_mem_keys rest k (h ▸ hs.1)
      simp [JObj.get, h, hrest, JObj.get_set_self]
    · have hne : k ≠ p.1 := fun hh => h hh.symm
      simp [JObj.get, h, JObj.get_set_ne t p.1 k p.2 hne]

theorem get_removeKeys (o : JObj) (ks : List String) (k : String) :
    JObj.get (removeKeys o ks) k =
      if k ∈ ks then none else JObj.get o k := by
  induction o with
  | nil => simp [removeKeys, JObj.get]
  | cons p rest ih =>
    by_cases hc : p.1 ∈ ks
    · have hdrop : removeKeys (p :: rest) ks = removeKeys rest ks := by
        simp [removeKeys, List.filter_cons, hc]
      rw [hdrop, ih]
      by_cases hkk : k ∈ ks
      · simp [hkk]
      · have hpk : ¬ p.1 = k := fun hh => hkk (hh ▸ hc)
        simp [hkk, JObj.get, hpk]
    · have hkeep : removeKeys (p :: rest) ks = p :: removeKeys rest ks := by
        simp [removeKeys, List.filter_cons, hc]
      rw [hkeep]
      by_cases hk : p.1 = k
      · have hkk : ¬ k ∈ ks := fun hh => hc (hk ▸ hh)
        simp [JObj.get, hk, hkk]
      · simp [JObj.get, hk, ih]

theorem keys_removeKeys_sublist (o : JObj) (ks : List String) :
    ((removeKeys o ks).map Prod.fst).Sublist (o.map Prod.fst) :=
  List.Sublist.map Prod.fst (List.filter_sublist o)

/-- The `status` field of a task record: `{ exportURL?: string }`. -/
structure TaskStatus where
  exportURL : Option String
deriving DecidableEq, Repr

/-- The `Task` interface of the source: `{ id, state, status }`. -/
structure Task where
  id : String
  state : String
  status : TaskStatus
deriving DecidableEq, Repr

/-- What one `getTasks` request yields from the perspective of `getTask`:
either the `results` list of the response, or the rejection of the HTTP
request (a transport error). -/
inductive QueryResult where
  | ok : List Task → QueryResult
  | err : String → QueryResult
deriving DecidableEq, Repr

/-- `getTask`'s lookup on a response:
`res.data.results.find((t) => t.id === taskId)` — `none` models the
`undefined` that `Array.prototype.find` yields when nothing matches. -/
def getTask (taskId : String) (results : List Task) : Option Task :=
  results.find? (fun t => t.id == taskId)

/-- JS truthiness of `task.status.exportURL`: `undefined` and `""` are falsy. -/
def truthyStr : Option String → Bool
  | none => false
  | some s => s != ""

/-- Observable events of one run of `pollTask`: the timer delays, the
status-query requests, and the `console.error(taskId, task)` log line. -/
inductive Event where
  | delay : Nat → Event
  | query : Event
  | consoleError : String → Task → Event
deriving DecidableEq, Repr

/-- An exception that escapes the `async` callback handed to `setTimeout`.
Such an exception becomes an unhandled promise rejection: neither `resolve`
nor `reject` of the surrounding `new Promise` executor has run, so the
promise returned by `pollTask` never settles. -/
inductive UncaughtError where
  | queryError : String → UncaughtError
  | undefinedStateAccess : UncaughtError
deriving DecidableEq, Repr

/-- How a run of `pollTask` ends, as observed by the caller of the promise. -/
inductive PollOutcome where
  | resolved : String → PollOutcome
  | rejected : String → PollOutcome
  | unsettled : UncaughtError → PollOutcome
  | stillPolling : PollOutcome
deriving DecidableEq, Repr

/-- The message `pollTask` rejects with:
`` `Export task failed: ${taskId}.` ``. -/
def exportTaskFailedMsg (taskId : String) : String :=
  "Export task failed: " ++ taskId ++ "."

/-- One run of the `pollTask` loop over the finite stream of status-query
results, with `interval = this.config.pollInterval || defaultConfig.pollInterval`
already resolved (the source computes it once, before the first timer).
Each iteration is `setTimeout(poll, interval)` followed by the query; then:
success with a truthy `exportURL` resolves it, the two non-terminal states
reschedule, and anything else logs `console.error(taskId, task)` and rejects.
A query rejection (`err`) or a failed lookup (`task` is `undefined`, so
`task.state` throws a TypeError) escapes the callback and leaves the promise
unsettled. `stillPolling` marks exhaustion of the modelled stream while the
loop is still rescheduling. -/
def pollRun (taskId : String) (interval : Nat) :
    List QueryResult → List Event × PollOutcome
  | [] => ([], PollOutcome.stillPolling)
  | QueryResult.err e :: _ =>
      ([Event.delay interval, Event.query],
       PollOutcome.unsettled (UncaughtError.queryError e))
  | QueryResult.ok results :: rest =>
      match getTask taskId results with
      | none =>
          ([Event.delay interval, Event.query],
           PollOutcome.unsettled UncaughtError.undefinedStateAccess)
      | some task =>
          if task.state == "success" && truthyStr task.status.exportURL then
            ([Event.delay interval, Event.query],
             PollOutcome.resolved (task.status.exportURL.getD ""))
          else if task.state == "in_progress" || task.state == "not_started" then
            let r := pollRun taskId interval rest
            (Event.delay interval :: Event.query :: r.1, r.2)
          else
            ([Event.delay interval, Event.query, Event.consoleError taskId task],
             PollOutcome.rejected (exportTaskFailedMsg taskId))

/-- JS `String.prototype.endsWith(suffix)`. -/
def jsEndsWith (s suffix : String) : Bool :=
  suffix.data.isSuffixOf s.data

/-- JS `String.prototype.trim()`: strip whitespace from both ends. -/
def jsTrim (s : String) : String :=
  String.mk
    (((s.data.dropWhile Char.isWhitespace).reverse.dropWhile
      Char.isWhitespace).reverse)

/-- A ZIP entry as used by the source: a `name` and the decoded text that
`entry.getData().toString()` yields. -/
structure ZipEntry where
  name : String
  getData : String
deriving DecidableEq, Repr

/-- The settled value of the promise returned by the string accessors. -/
inductive PromiseResult where
  | ok : String → PromiseResult
  | rejected : String → PromiseResult
deriving DecidableEq, Repr

/-- `getFileString`'s work on a downloaded archive:
`zip.getEntries().find(predicate)` then
`entry?.getData().toString().trim() || Promise.reject("Could not find file in ZIP.")`.
The `||` rejects both when `entry` is `undefined` and when the trimmed text is
the empty string (which is falsy in JS). -/
def getFileString (entries : List ZipEntry) (predicate : ZipEntry → Bool) :
    PromiseResult :=
  match entries.find? predicate with
  | none => PromiseResult.rejected "Could not find file in ZIP."
  | some entry =>
      if jsTrim entry.getData == "" then
        PromiseResult.rejected "Could not find file in ZIP."
      else
        PromiseResult.ok (jsTrim entry.getData)

/-- `getCsvString`: `getFileString` with the predicate
`(e) => e.name.endsWith(onlyCurrentView ? ".csv" : "_all.csv")`. -/
def getCsvString (entries : List ZipEntry) (onlyCurrentView : Bool) :
    PromiseResult :=
  getFileString entries
    (fun e => jsEndsWith e.name (if onlyCurrentView then ".csv" else "_all.csv"))

/-- Hexadecimal digit in either case. -/
def isHexChar (c : Char) : Bool :=
  ('0' ≤ c && c ≤ '9') || ('a' ≤ c && c ≤ 'f') || ('A' ≤ c && c ≤ 'F')

/-- Remove every dash from a character list. -/
def stripDashes (l : List Char) : List Char :=
  l.filter (fun c => !(c == '-'))

/-- Modelled from the spec: `validateUuid` is imported from "./blockId", a file
that is not among the sources. Spec §4.1: "If input matches a bare
32-hex-character (with or without dashes) pattern, normalize by removing
dashes and lowercasing"; "Fails with an InvalidIdentifierError if no valid
pattern is found". -/
def validateUuid (s : String) : Option String :=
  let t := stripDashes s.data
  if t.length == 32 && t.all isHexChar then
    some (String.mk (t.map Char.toLower))
  else
    none

/-- The final path segment of a character list: the characters after the last
slash (the whole list when there is no slash). -/
def lastSegment (l : List Char) : List Char :=
  l.foldl (fun acc c => if c == '/' then [] else acc ++ [c]) []

/-- The trailing token of hex characters and dashes: the longest suffix all of
whose characters are hex digits or dashes. -/
def trailingHexDashToken (l : List Char) : List Char :=
  (l.reverse.takeWhile (fun c => isHexChar c || c == '-')).reverse

/-- Modelled from the spec: `blockIdFromUrl` is imported from "./blockId", a
file that is not among the sources. Spec §4.1: "If input is a URL, take the
final path segment, strip any leading slug text, and extract the trailing
32-hex-character token (with or without dashes)." A non-URL input has no
slash, so its final path segment is the input itself. -/
def blockIdFromUrl (url : String) : String :=
  String.mk (trailingHexDashToken (lastSegment url.data))

/-- Modelled from the spec: the module-level `defaultConfig` object exported by
"./config", a file that is not among the sources. Spec §3: "`recursive`
(include child pages, default false), `pollInterval` (milliseconds between
status checks, default implementation-chosen, e.g. 2000)". -/
def defaultConfig : JObj :=
  [("recursive", JVal.vBool false), ("pollInterval", JVal.vNum 2000)]

/-- The constructor's configuration merge:
`this.config = Object.assign(defaultConfig, config)`. `Object.assign` mutates
and returns its first argument, so the module-level default object is threaded
through as state: the first component is the default object after the call,
the second is the client's `this.config` (the same object). -/
def constructClient (moduleDefault : JObj) (config : Option JObj) :
    JObj × JObj :=
  let merged := objectAssign moduleDefault (config.getD [])
  (merged, merged)

/-- The body posted to `enqueueTask`, restricted to the fields under
`task.request` (the surrounding `eventName: "exportBlock"` wrapper is
constant). -/
structure EnqueueBody where
  blockId : String
  recursive : Bool
  shouldExportComments : Bool
  exportOptions : JObj
deriving DecidableEq, Repr

/-- The request body built by `getTaskId` from the merged configuration:
`const { recursive, pollInterval, ...config } = this.config` and then
`{ block: { id }, recursive: !!recursive, shouldExportComments: false,
exportOptions: { exportType: "markdown", ...config } }`. -/
def buildEnqueueBody (config : JObj) (id : String) : EnqueueBody :=
  let rest := removeKeys config ["recursive", "pollInterval"]
  { blockId := id
    recursive := jsTruthy (JObj.get config "recursive")
    shouldExportComments := false
    exportOptions := objectAssign [("exportType", JVal.vStr "markdown")] rest }

/-- `getTaskId`'s control flow: resolve the identifier; on failure reject with
`` `Invalid URL or blockId: ${idOrUrl}` `` before issuing any request, else
post the enqueue body and return the task id of the response. The first
component lists the requests issued, in order. -/
def getTaskId (config : JObj) (idOrUrl : String) (remoteTaskId : String) :
    List EnqueueBody × Except String String :=
  match validateUuid (blockIdFromUrl idOrUrl) with
  | none => ([], Except.error ("Invalid URL or blockId: " ++ idOrUrl))
  | some id => ([buildEnqueueBody config id], Except.ok remoteTaskId)

/-- Claim C1: the spec says an error raised by a status query propagates
immediately to the caller of the export operation as a failed operation. The
code does not do this: the query error is thrown inside the `async` callback
handed to `setTimeout`, where neither `resolve` nor `reject` of the `pollTask`
promise runs, so the loop indeed never retries (exactly one query is issued)
but the promise is left unsettled instead of rejected — the caller never
observes the failure. -/
theorem pollTask_query_error_leaves_promise_unsettled :
    pollRun "tid0" 2000 [QueryResult.err "ECONNRESET"] =
      ([Event.delay 2000, Event.query],
       PollOutcome.unsettled (UncaughtError.queryError "ECONNRESET")) ∧
    (pollRun "tid0" 2000 [QueryResult.err "ECONNRESET"]).1.count Event.query = 1 ∧
    decide ((pollRun "tid0" 2000 [QueryResult.err "ECONNRESET"]).2 =
      PollOutcome.rejected "ECONNRESET") = false := by
  refine ⟨rfl, rfl, rfl⟩

/-- Claim C5: a task that reports `in_progress` twice and then `success` with
a present (truthy) export URL makes the poll loop perform exactly three status
queries, each preceded by one delay of the configured interval, and resolve
with that URL. -/
theorem pollTask_three_polls_resolves (taskId : String) (interval : Nat)
    (u : String) (hu : u ≠ "") :
    pollRun taskId interval
      [QueryResult.ok [{ id := taskId, state := "in_progress",
                         status := { exportURL := none } }],
       QueryResult.ok [{ id := taskId, state := "in_progress",
                         status := { exportURL := none } }],
       QueryResult.ok [{ id := taskId, state := "success",
                         status := { exportURL := some u } }]] =
      ([Event.delay interval, Event.query, Event.delay interval, Event.query,
        Event.delay interval, Event.query], PollOutcome.resolved u) := by
  have hu2 : (u != "") = true := by simpa using hu
  simp [pollRun, getTask, truthyStr, hu2]

/-- Witness for C5 at a concrete URL. -/
theorem pollTask_three_polls_resolves_witness :
    pollRun "t" 1
      [QueryResult.ok [{ id := "t", state := "in_progress",
                         status := { exportURL := none } }],
       QueryResult.ok [{ id := "t", state := "in_progress",
                         status := { exportURL := none } }],
       QueryResult.ok [{ id := "t", state := "success",
                         status := { exportURL := some "https://file.notion.so/x.zip" } }]] =
      ([Event.delay 1, Event.query, Event.delay 1, Event.query,
        Event.delay 1, Event.query],
       PollOutcome.resolved "https://file.notion.so/x.zip") :=
  pollTask_three_polls_resolves "t" 1 "https://file.notion.so/x.zip" (by decide)

/-- Claim C7, counterexample: the rejection the caller receives is the string
`Export task failed: <taskId>.` and nothing else — two runs whose last
observed task records differ (different terminal state and different status
payload) produce the very same rejected value, so the error does not carry
the last observed status payload. The payload only reaches the
`console.error` log. -/
theorem pollTask_rejection_drops_payload :
    (pollRun "t1" 5 [QueryResult.ok [(⟨"t1", "failed",
        ⟨some "payloadA"⟩⟩ : Task)]]).2 =
      PollOutcome.rejected "Export task failed: t1." ∧
    (pollRun "t1" 5 [QueryResult.ok [(⟨"t1", "cancelled",
        ⟨none⟩⟩ : Task)]]).2 =
      PollOutcome.rejected "Export task failed: t1." ∧
    decide ((⟨"t1", "failed", ⟨some "payloadA"⟩⟩ : Task) =
      ⟨"t1", "cancelled", ⟨none⟩⟩) = false := by
  refine ⟨rfl, rfl, rfl⟩

/-- Claim C7, amended: a poll iteration that observes a task record whose
state is neither `not_started` nor `in_progress` and is not `success` with a
truthy export URL terminates the loop by rejecting with the
export-task-failed message carrying the task identifier; the last observed
status payload is written to the console error log, not carried in the
rejection. -/
theorem pollTask_failure_rejects_with_taskId (taskId : String) (interval : Nat)
    (results : List Task) (rest : List QueryResult) (t : Task)
    (hfind : getTask taskId results = some t)
    (hs1 : t.state ≠ "in_progress") (hs2 : t.state ≠ "not_started")
    (hs3 : ¬ (t.state = "success" ∧ truthyStr t.status.exportURL = true)) :
    pollRun taskId interval (QueryResult.ok results :: rest) =
      ([Event.delay interval, Event.query, Event.consoleError taskId t],
       PollOutcome.rejected (exportTaskFailedMsg taskId)) := by
  have hb1 : (t.state == "success" && truthyStr t.status.exportURL) = false := by
    by_cases h : t.state = "success"
    · have hurl : truthyStr t.status.exportURL = false := by
        cases hcur : truthyStr t.status.exportURL
        · rfl
        · exact absurd ⟨h, hcur⟩ hs3
      simp [h, hurl]
    · simp [h]
  have hb2 : (t.state == "in_progress" || t.state == "not_started") = false := by
    simp [hs1, hs2]
  simp [pollRun, hfind, hb1, hb2]

/-- Witness for the amended C7 at a concrete failed task. -/
theorem pollTask_failure_rejects_with_taskId_witness :
    pollRun "t9" 3 [QueryResult.ok [(⟨"t9", "failure", ⟨none⟩⟩ : Task)]] =
      ([Event.delay 3, Event.query,
        Event.consoleError "t9" ⟨"t9", "failure", ⟨none⟩⟩],
       PollOutcome.rejected (exportTaskFailedMsg "t9")) :=
  pollTask_failure_rejects_with_taskId "t9" 3
    [⟨"t9", "failure", ⟨none⟩⟩] [] ⟨"t9", "failure", ⟨none⟩⟩
    (by decide) (by decide) (by decide) (by decide)

/-- Claim C10: when the status response contains a record whose id equals the
polled task identifier, the lookup of `getTask` returns such a record, and
the state inspection that follows is well-defined; when no record matches,
the lookup yields `none` (the `undefined` of `Array.prototype.find`) and the
iteration dies on the `task.state` access with an uncaught TypeError — the
promise is left unsettled and no classified error branch (resolve, reschedule
or reject) is reached. -/
theorem getTask_assumes_matching_record (taskId : String) (results : List Task)
    (rest : List QueryResult) (interval : Nat) :
    ((∃ t, t ∈ results ∧ t.id = taskId) →
      ∃ t, getTask taskId results = some t ∧ t.id = taskId) ∧
    (getTask taskId results = none →
      pollRun taskId interval (QueryResult.ok results :: rest) =
        ([Event.delay interval, Event.query],
         PollOutcome.unsettled UncaughtError.undefinedStateAccess)) := by
  constructor
  · rintro ⟨t, htmem, htid⟩
    cases hfind : getTask taskId results with
    | none =>
      exfalso
      simp only [getTask] at hfind
      have := List.find?_eq_none.mp hfind t htmem
      simp [htid] at this
    | some t' =>
      refine ⟨t', rfl, ?_⟩
      simp only [getTask] at hfind
      have := List.find?_some hfind
      simpa using this
  · intro h
    simp [pollRun, h]

/-- Witness for C10: a matching record is found, and an iteration whose
response contains no matching record leaves the promise unsettled. -/
theorem getTask_assumes_matching_record_witness :
    (∃ t, getTask "t1" [(⟨"t1", "in_progress", ⟨none⟩⟩ : Task)] = some t ∧
      t.id = "t1") ∧
    pollRun "t1" 7 [QueryResult.ok []] =
      ([Event.delay 7, Event.query],
       PollOutcome.unsettled UncaughtError.undefinedStateAccess) :=
  ⟨(getTask_assumes_matching_record "t1" [⟨"t1", "in_progress", ⟨none⟩⟩] [] 7).1
      ⟨⟨"t1", "in_progress", ⟨none⟩⟩, by decide, rfl⟩,
   (getTask_assumes_matching_record "t1" [] [QueryResult.ok []].tail 7).2 rfl⟩

/-- Claim C2, counterexample: an archive with exactly one entry, which the
predicate matches but whose decoded text is the empty string, makes
`getFileString` reject with the file-not-found message even though an entry
satisfies the predicate — the `||` after `.trim()` treats the empty string as
falsy. The claim's "fails exactly when no entry satisfies the predicate,
... including the empty string" is false at this input. -/
theorem getFileString_empty_text_rejected :
    getFileString [{ name := "page.md", getData := "" }]
        (fun e => jsEndsWith e.name ".md") =
      PromiseResult.rejected "Could not find file in ZIP." ∧
    (List.find? (fun e => jsEndsWith e.name ".md")
        [({ name := "page.md", getData := "" } : ZipEntry)]).isSome = true ∧
    decide (getFileString [{ name := "page.md", getData := "" }]
        (fun e => jsEndsWith e.name ".md") = PromiseResult.ok "") = false := by
  refine ⟨rfl, rfl, rfl⟩

/-- Claim C2, amended: `getFileString` rejects with the file-not-found message
when no entry satisfies the predicate or when the first satisfying entry's
decoded text trims to the empty string; otherwise it returns the decoded,
trimmed text of the first entry in archive order that satisfies the
predicate. -/
theorem getFileString_first_match_or_reject (entries : List ZipEntry)
    (p : ZipEntry → Bool) :
    ((∀ e ∈ entries, p e = false) →
      getFileString entries p =
        PromiseResult.rejected "Could not find file in ZIP.") ∧
    (∀ e, entries.find? p = some e → jsTrim e.getData ≠ "" →
      getFileString entries p = PromiseResult.ok (jsTrim e.getData)) ∧
    (∀ e, entries.find? p = some e → jsTrim e.getData = "" →
      getFileString entries p =
        PromiseResult.rejected "Could not find file in ZIP.") := by
  refine ⟨?_, ?_, ?_⟩
  · intro h
    have hnone : entries.find? p = none := by
      rw [List.find?_eq_none]
      intro x hx
      simp [h x hx]
    simp [getFileString, hnone]
  · intro e hfind hne
    have hb : (jsTrim e.getData == "") = false := by simpa using hne
    simp [getFileString, hfind, hb]
  · intro e hfind he
    simp [getFileString, hfind, he]

/-- Witness for the amended C2: a matching nonempty entry yields its trimmed
text; a predicate nothing matches yields the rejection. -/
theorem getFileString_first_match_or_reject_witness :
    getFileString [{ name := "a.md", getData := " hi " }]
        (fun e => jsEndsWith e.name ".md") = PromiseResult.ok "hi" ∧
    getFileString [{ name := "b.txt", getData := "x" }]
        (fun e => jsEndsWith e.name ".md") =
      PromiseResult.rejected "Could not find file in ZIP." :=
  ⟨(getFileString_first_match_or_reject [⟨"a.md", " hi "⟩]
        (fun e => jsEndsWith e.name ".md")).2.1 ⟨"a.md", " hi "⟩ (by decide)
      (by decide),
   (getFileString_first_match_or_reject [⟨"b.txt", "x"⟩]
        (fun e => jsEndsWith e.name ".md")).1 (by decide)⟩

/-- Claim C3, counterexample: in an archive listing `table_all.csv` before
`view_current.csv`, `getCsvString` with `onlyCurrentView = true` returns the
content of `table_all.csv`, not of `view_current.csv` — the flag's predicate
is `endsWith ".csv"`, which both names satisfy, so archive order decides. The
claim's "regardless of the order of the two entries" is false at this
input. -/
theorem getCsvString_true_order_dependent :
    getCsvString [{ name := "table_all.csv", getData := "A" },
        { name := "view_current.csv", getData := "B" }] true =
      PromiseResult.ok "A" ∧
    decide (getCsvString [{ name := "table_all.csv", getData := "A" },
        { name := "view_current.csv", getData := "B" }] true =
      PromiseResult.ok "B") = false := by
  refine ⟨rfl, rfl⟩

/-- Claim C3, amended: in an archive whose entries are `table_all.csv` and
`view_current.csv` (either order, nonempty trimmed contents),
`getCsvString false` returns the content of `table_all.csv` regardless of
order, while `getCsvString true` matches any name ending in `.csv` and so
returns the content of whichever of the two entries comes first in archive
order. -/
theorem getCsvString_selects_by_suffix (a b : String)
    (ha : jsTrim a ≠ "") (hb : jsTrim b ≠ "") :
    getCsvString [{ name := "table_all.csv", getData := a },
        { name := "view_current.csv", getData := b }] false =
      PromiseResult.ok (jsTrim a) ∧
    getCsvString [{ name := "view_current.csv", getData := b },
        { name := "table_all.csv", getData := a }] false =
      PromiseResult.ok (jsTrim a) ∧
    getCsvString [{ name := "table_all.csv", getData := a },
        { name := "view_current.csv", getData := b }] true =
      PromiseResult.ok (jsTrim a) ∧
    getCsvString [{ name := "view_current.csv", getData := b },
        { name := "table_all.csv", getData := a }] true =
      PromiseResult.ok (jsTrim b) := by
  have ha2 : (jsTrim a == "") = false := by simpa using ha
  have hb2 : (jsTrim b == "") = false := by simpa using hb
  have e1 : jsEndsWith "table_all.csv" "_all.csv" = true := by decide
  have e2 : jsEndsWith "view_current.csv" "_all.csv" = false := by decide
  have e3 : jsEndsWith "table_all.csv" ".csv" = true := by decide
  have e4 : jsEndsWith "view_current.csv" ".csv" = true := by decide
  refine ⟨?_, ?_, ?_, ?_⟩ <;>
    simp [getCsvString, getFileString, List.find?_cons, e1, e2, e3, e4, ha2, hb2]

/-- Witness for the amended C3 at concrete contents. -/
theorem getCsvString_selects_by_suffix_witness :
    getCsvString [{ name := "table_all.csv", getData := "A" },
        { name := "view_current.csv", getData := "B" }] false =
      PromiseResult.ok "A" ∧
    getCsvString [{ name := "view_current.csv", getData := "B" },
        { name := "table_all.csv", getData := "A" }] true =
      PromiseResult.ok "B" := by
  have h := getCsvString_selects_by_suffix "A" "B" (by decide) (by decide)
  exact ⟨h.1, h.2.2.2⟩

/-- Claim C4, counterexample: `Object.assign(defaultConfig, config)` merges
the caller's options into the module-level default object, mutating it. A
first client constructed with `{recursive: true}` followed by a second client
constructed without overrides leaves the second client observing
`recursive: true`, although the original default is `recursive: false`. -/
theorem constructor_mutates_shared_defaults :
    JObj.get (constructClient (constructClient defaultConfig
        (some [("recursive", JVal.vBool true)])).1 none).2 "recursive" =
      some (JVal.vBool true) ∧
    JObj.get defaultConfig "recursive" = some (JVal.vBool false) := by
  refine ⟨rfl, rfl⟩

/-- Claim C4, amended: the constructor's merge mutates the module-level
default-configuration object, so every override of a client constructed
earlier is observed by a client constructed later without overrides — the
later client's configuration is the mutated default object, not the original
defaults. -/
theorem constructor_overrides_leak_to_later_clients (c : JObj) (k : String)
    (v : JVal) (hnd : (c.map Prod.fst).Nodup) (hget : JObj.get c k = some v) :
    JObj.get (constructClient (constructClient defaultConfig (some c)).1
      none).2 k = some v := by
  have h2 : (constructClient (constructClient defaultConfig (some c)).1
      none).2 = objectAssign defaultConfig c := rfl
  rw [h2, get_objectAssign _ _ _ hnd, hget]

/-- Witness for the amended C4 at the `recursive` override. -/
theorem constructor_overrides_leak_to_later_clients_witness :
    JObj.get (constructClient (constructClient defaultConfig
        (some [("recursive", JVal.vBool true)])).1 none).2 "recursive" =
      some (JVal.vBool true) :=
  constructor_overrides_leak_to_later_clients
    [("recursive", JVal.vBool true)] "recursive" (JVal.vBool true)
    (by decide) (by decide)

theorem takeWhile_eq_self_of_all {α : Type} (p : α → Bool) (l : List α)
    (h : ∀ a ∈ l, p a = true) : l.takeWhile p = l := by
  induction l with
  | nil => rfl
  | cons a l ih =>
    simp [List.takeWhile_cons, h a (List.mem_cons_self a l),
      ih (fun x hx => h x (List.mem_cons_of_mem a hx))]

theorem lastSegment_no_slash (l : List Char)
    (h : ∀ c ∈ l, ¬ (c == '/') = true) : lastSegment l = l := by
  have hgen : ∀ (l' acc : List Char), (∀ c ∈ l', ¬ (c == '/') = true) →
      l'.foldl (fun acc c => if c == '/' then [] else acc ++ [c]) acc =
        acc ++ l' := by
    intro l'
    induction l' with
    | nil => intro acc _; simp
    | cons a t ih =>
      intro acc hh
      have hha : ¬ (a == '/') = true := hh a (List.mem_cons_self a t)
      simp only [List.foldl_cons, if_neg hha]
      rw [ih (acc ++ [a]) (fun x hx => hh x (List.mem_cons_of_mem a hx))]
      simp
  simpa [lastSegment] using hgen l [] h

/-- A string all of whose characters are hex digits or dashes and whose
dash-stripped form has 32 characters resolves — via `blockIdFromUrl` and then
`validateUuid` — to the dash-stripped, lowercased identifier. -/
theorem resolver_normalizes (s : String)
    (hchars : ∀ c ∈ s.data, (isHexChar c || c == '-') = true)
    (hlen : (stripDashes s.data).length = 32) :
    validateUuid (blockIdFromUrl s) =
      some (String.mk ((stripDashes s.data).map Char.toLower)) := by
  have hnoslash : ∀ c ∈ s.data, ¬ (c == '/') = true := by
    intro c hc hcs
    have hor := hchars c hc
    have hc' : c = '/' := by simpa using hcs
    subst hc'
    exact absurd hor (by decide)
  have hseg : lastSegment s.data = s.data := lastSegment_no_slash s.data hnoslash
  have htok : trailingHexDashToken s.data = s.data := by
    unfold trailingHexDashToken
    rw [takeWhile_eq_self_of_all _ _
      (fun c hc => hchars c (List.mem_reverse.mp hc))]
    exact List.reverse_reverse _
  have hblock : blockIdFromUrl s = s := by
    unfold blockIdFromUrl
    rw [hseg, htok]
  rw [hblock]
  unfold validateUuid
  have hhex : (stripDashes s.data).all isHexChar = true := by
    rw [List.all_eq_true]
    intro c hc
    have hmem := List.mem_filter.mp hc
    have hor := hchars c hmem.1
    have hnd : (c == '-') = false := by
      have := hmem.2
      simp only [Bool.not_eq_true'] at this
      simpa using this
    simpa [hnd] using hor
  simp [hlen, hhex]

/-- Claim C9: every input consisting of 32 hexadecimal characters with
optional dash separators, in any letter case and with any dash placement,
resolves to the dash-stripped lowercased 32-character identifier; two such
inputs that agree up to dash placement and letter case resolve to the same
normalized string. -/
theorem resolver_normalizes_uniformly (s₁ s₂ : String)
    (h₁ : ∀ c ∈ s₁.data, (isHexChar c || c == '-') = true)
    (hl₁ : (stripDashes s₁.data).length = 32)
    (h₂ : ∀ c ∈ s₂.data, (isHexChar c || c == '-') = true)
    (hl₂ : (stripDashes s₂.data).length = 32)
    (hsame : (stripDashes s₁.data).map Char.toLower =
      (stripDashes s₂.data).map Char.toLower) :
    validateUuid (blockIdFromUrl s₁) =
      some (String.mk ((stripDashes s₁.data).map Char.toLower)) ∧
    validateUuid (blockIdFromUrl s₁) = validateUuid (blockIdFromUrl s₂) ∧
    (String.mk ((stripDashes s₁.data).map Char.toLower)).length = 32 := by
  refine ⟨resolver_normalizes s₁ h₁ hl₁, ?_, ?_⟩
  · rw [resolver_normalizes s₁ h₁ hl₁, resolver_normalizes s₂ h₂ hl₂, hsame]
  · simpa [String.length] using hl₁

/-- Witness for C9: a dashed mixed-case UUID and its bare lowercase form
resolve to the same normalized identifier. -/
theorem resolver_normalizes_uniformly_witness :
    validateUuid (blockIdFromUrl "83715D77-03EE-4b86-99b5-e659a4712dd8") =
      some "83715d7703ee4b8699b5e659a4712dd8" ∧
    validateUuid (blockIdFromUrl "83715D77-03EE-4b86-99b5-e659a4712dd8") =
      validateUuid (blockIdFromUrl "83715d7703ee4b8699b5e659a4712dd8") := by
  have h := resolver_normalizes_uniformly
    "83715D77-03EE-4b86-99b5-e659a4712dd8"
    "83715d7703ee4b8699b5e659a4712dd8"
    (by decide) (by decide) (by decide) (by decide) (by decide)
  exact ⟨h.1, h.2.1⟩

/-- Claim C8: an input on which the identifier resolver finds no valid
32-hex-character identifier makes `getTaskId` reject with the
invalid-identifier message while issuing no request at all — the request
trace is empty, so the failure happens before any network round-trip. -/
theorem getTaskId_invalid_id_fails_before_network (config : JObj)
    (idOrUrl : String) (remoteTaskId : String)
    (h : validateUuid (blockIdFromUrl idOrUrl) = none) :
    getTaskId config idOrUrl remoteTaskId =
      ([], Except.error ("Invalid URL or blockId: " ++ idOrUrl)) := by
  simp [getTaskId, h]

/-- Witness for C8 at a URL with no identifier in its last path segment. -/
theorem getTaskId_invalid_id_fails_before_network_witness :
    getTaskId [] "https://www.notion.so/Some-Page" "task1" =
      ([], Except.error
        ("Invalid URL or blockId: " ++ "https://www.notion.so/Some-Page")) :=
  getTaskId_invalid_id_fails_before_network [] "https://www.notion.so/Some-Page"
    "task1" (by decide)

/-- Claim C6: for every merged configuration (a JS object, so with pairwise
distinct keys), the enqueue request body excludes `pollInterval` from the
forwarded export options, coerces `recursive` with `!!` (absent means
`false`), defaults `exportType` to "markdown" when the configuration does not
override it, and forwards every configuration option other than `recursive`
and `pollInterval` verbatim in `exportOptions`. -/
theorem enqueueTask_body_forwards_config (cfg : JObj) (id : String)
    (hnd : (cfg.map Prod.fst).Nodup) :
    JObj.get (buildEnqueueBody cfg id).exportOptions "pollInterval" = none ∧
    (JObj.get cfg "recursive" = none →
      (buildEnqueueBody cfg id).recursive = false) ∧
    (∀ b, JObj.get cfg "recursive" = some (JVal.vBool b) →
      (buildEnqueueBody cfg id).recursive = b) ∧
    (JObj.get cfg "exportType" = none →
      JObj.get (buildEnqueueBody cfg id).exportOptions "exportType" =
        some (JVal.vStr "markdown")) ∧
    (∀ k v, k ≠ "recursive" → k ≠ "pollInterval" → JObj.get cfg k = some v →
      JObj.get (buildEnqueueBody cfg id).exportOptions k = some v) := by
  have hrestnd :
      ((removeKeys cfg ["recursive", "pollInterval"]).map Prod.fst).Nodup :=
    List.Nodup.sublist (keys_removeKeys_sublist cfg _) hnd
  have hopts : (buildEnqueueBody cfg id).exportOptions =
      objectAssign [("exportType", JVal.vStr "markdown")]
        (removeKeys cfg ["recursive", "pollInterval"]) := rfl
  refine ⟨?_, ?_, ?_, ?_, ?_⟩
  · rw [hopts, get_objectAssign _ _ _ hrestnd, get_removeKeys]
    simp [JObj.get]
  · intro h
    have : (buildEnqueueBody cfg id).recursive =
        jsTruthy (JObj.get cfg "recursive") := rfl
    rw [this, h]
    rfl
  · intro b h
    have : (buildEnqueueBody cfg id).recursive =
        jsTruthy (JObj.get cfg "recursive") := rfl
    rw [this, h]
    rfl
  · intro h
    rw [hopts, get_objectAssign _ _ _ hrestnd, get_removeKeys]
    simp [h, JObj.get]
  · intro k v hk1 hk2 h
    rw [hopts, get_objectAssign _ _ _ hrestnd, get_removeKeys]
    simp [hk1, hk2, h]

/-- Witness for C6 at the spec's example configuration
`{recursive: true, pollInterval: 500, exportType: "markdown"}`. -/
theorem enqueueTask_body_forwards_config_witness :
    JObj.get (buildEnqueueBody
        [("recursive", JVal.vBool true), ("pollInterval", JVal.vNum 500),
         ("exportType", JVal.vStr "markdown")] "83715d7703ee4b8699b5e659a4712dd8").exportOptions
      "pollInterval" = none ∧
    (buildEnqueueBody
        [("recursive", JVal.vBool true), ("pollInterval", JVal.vNum 500),
         ("exportType", JVal.vStr "markdown")] "83715d7703ee4b8699b5e659a4712dd8").recursive
      = true ∧
    JObj.get (buildEnqueueBody
        [("recursive", JVal.vBool true), ("pollInterval", JVal.vNum 500),
         ("exportType", JVal.vStr "markdown")] "83715d7703ee4b8699b5e659a4712dd8").exportOptions
      "exportType" = some (JVal.vStr "markdown") := by
  have h := enqueueTask_body_forwards_config
    [("recursive", JVal.vBool true), ("pollInterval", JVal.vNum 500),
     ("exportType", JVal.vStr "markdown")] "83715d7703ee4b8699b5e659a4712dd8"
    (by decide)
  exact ⟨h.1, h.2.2.1 true (by decide),
    h.2.2.2.2 "exportType" (JVal.vStr "markdown") (by decide) (by decide)
      (by decide)⟩

end NotionExporter
